import Mathlib

set_option linter.unusedVariables false

namespace Scada

/-!  Shallow embedding of the react-scada-backend acquisition and alarm pipeline
(`app/services/alarms/engine.py`, `app/services/bridges/factory.py`,
`app/services/engine.py`, `app/services/mqtt_listener.py`).

Numeric tag values are modelled as rationals.  Wall-clock timestamps
(`datetime.utcnow()` in the source) are modelled as naturals supplied
explicitly at each call site.  Fallible operations return `Except`.  -/

/-- Alarm severity levels, from `app/db/models.py` (`AlarmSeverity`): the
string-valued enum with members `info`, `warning`, `critical`. -/
inductive AlarmSeverity
  | info
  | warning
  | critical
  deriving DecidableEq, Repr

/-- The `.value` string of an `AlarmSeverity` member (the engine publishes
`str(severity.value)`). -/
def sevValue : AlarmSeverity → String
  | .info => "info"
  | .warning => "warning"
  | .critical => "critical"

/-- Modelled from the spec: `AlarmStatus` as used by the alarm engine
(`ACTIVE_UNACK`, `ACTIVE_ACK`, `RESOLVED`, spec §4.5).  The class shipped in
`src/app/db/models.py` is a stale version lacking these members (and lacking
`AlarmEvent` entirely), while every caller in src imports them; the state set
is taken from the spec, which matches the engine's call sites. -/
inductive AlarmStatus
  | activeUnack
  | activeAck
  | resolved
  deriving DecidableEq, Repr

/-- An alarm definition attached to a tag, per `AlarmDefinitionEmbedded` /
`AlarmDefinitionRead` in `app/schemas/tag.py` (the ORM class is absent from
the shipped `models.py`): severity, message, a limits dict with optional
keys HH/H/L/LL, a deadband, and an active flag. -/
structure AlarmDefinition where
  id : Nat
  severity : AlarmSeverity
  message : String
  limits : List (String × Rat)
  deadband : Rat
  is_active : Bool
  deriving DecidableEq, Repr

/-- `limits.get(key)` on the limits dict. -/
def limitsGet (limits : List (String × Rat)) (key : String) : Option Rat :=
  (limits.find? (fun p => p.1 == key)).map (fun p => p.2)

/-- Modelled from the spec: the operative `Tag` record (spec §3) with the
fields the acquisition core reads — `id`, `name`, `mqtt_topic`,
`connection_config`, and the joined `alarm_definition`.  The `Tag` class in
the shipped `src/app/db/models.py` is a stale version without these
relations; the fields here are the ones dereferenced by the code in src. -/
structure Tag where
  id : Nat
  name : String
  mqtt_topic : Option String
  connection_config : List (String × String)
  alarm_definition : Option AlarmDefinition
  deriving DecidableEq, Repr

/-- `connection_config.get(key)` on a tag's config dict. -/
def cfgGet (cfg : List (String × String)) (key : String) : Option String :=
  (cfg.find? (fun p => p.1 == key)).map (fun p => p.2)

/-- Modelled from the spec: the `AlarmEvent` record (spec §3) as constructed
by `AlarmEngine._create_alarm` — `definition_id`, `trigger_value`, `status`,
`start_time`, and an optional `end_time` set on resolution.  The class is
absent from the shipped `models.py`. -/
structure AlarmEvent where
  definition_id : Nat
  trigger_value : Rat
  status : AlarmStatus
  start_time : Nat
  end_time : Option Nat
  deriving DecidableEq, Repr

/-- One `mqtt_client.publish_alarm(alarm_id, severity, message, status)`
call. -/
structure AlarmPublication where
  alarm_id : String
  severity : String
  message : String
  status : String
  deriving DecidableEq, Repr

/-- The engine's `_active_alarms` dict: alarm-key string to open event. -/
abbrev ActiveMap := List (String × AlarmEvent)

/-- Dict membership and read: `self._active_alarms[key]` / `key in dict`. -/
def amLookup (st : ActiveMap) (key : String) : Option AlarmEvent :=
  ((st : List (String × AlarmEvent)).find? (fun p => p.1 == key)).map (fun p => p.2)

/-- Dict removal, as performed by `self._active_alarms.pop(alarm_key)`. -/
def amErase (st : ActiveMap) (key : String) : ActiveMap :=
  (st : List (String × AlarmEvent)).filter (fun p => p.1 != key)

/-- Result of one `AlarmEngine.evaluate` call: the updated `_active_alarms`
map, the returned event (`Some` new alarm or `None`), the event transitioned
to RESOLVED if any, the alarm publications sent, and the invocations of the
registered external callback. -/
structure EvalOut where
  state : ActiveMap
  created : Option AlarmEvent
  resolvedEv : Option AlarmEvent
  publicationsSent : List AlarmPublication
  callbackCalls : List AlarmEvent
  deriving DecidableEq, Repr

/-- An evaluate call that touches nothing and returns `None`. -/
def noEffect (st : ActiveMap) : EvalOut :=
  { state := st, created := none, resolvedEv := none,
    publicationsSent := [], callbackCalls := [] }

/-- Decimal-free rendering of a rational for alarm message interpolation
(the source interpolates Python floats; rendering differences are
immaterial to the claims). -/
def ratStr (q : Rat) : String :=
  if q.den == 1 then toString q.num else toString q.num ++ "/" ++ toString q.den

/-- The message built by `evaluate`, e.g.
`f"{def_.message} (HH: {value} >= {hh})"`. -/
def mkAlarmMsg (base lname : String) (v : Rat) (op : String) (lv : Rat) : String :=
  base ++ " (" ++ lname ++ ": " ++ ratStr v ++ " " ++ op ++ " " ++ ratStr lv ++ ")"

/-- `hh is not None and value >= hh`. -/
def geLim (lim : Option Rat) (v : Rat) : Bool :=
  match lim with
  | some x => decide (v ≥ x)
  | none => false

/-- `ll is not None and value <= ll`. -/
def leLim (lim : Option Rat) (v : Rat) : Bool :=
  match lim with
  | some x => decide (v ≤ x)
  | none => false

/-- The `definition_id=tag.alarm_definition.id` read in `_create_alarm`
(every call site guarantees the definition is present). -/
def defIdOf (tag : Tag) : Nat :=
  match tag.alarm_definition with
  | some d => d.id
  | none => 0

/-- `AlarmEngine._create_alarm` (engine.py lines 81-115): build the event in
state `ACTIVE_UNACK` with the trigger value and start time; if no alarm is
already open under the tag's key, record it, publish an `ACTIVE`
notification, invoke the external callback when registered, and return the
event; otherwise record and notify nothing and return `None`. -/
def createAlarm (hasCallback : Bool) (st : ActiveMap) (tag : Tag) (value : Rat)
    (severity : AlarmSeverity) (message : String) (now : Nat) : EvalOut :=
  let alarm : AlarmEvent :=
    { definition_id := defIdOf tag, trigger_value := value,
      status := .activeUnack, start_time := now, end_time := none }
  let key := toString tag.id
  if (amLookup st key).isSome then
    { state := st, created := none, resolvedEv := none,
      publicationsSent := [], callbackCalls := [] }
  else
    { state := (key, alarm) :: st,
      created := some alarm,
      resolvedEv := none,
      publicationsSent := [⟨key, sevValue severity, message, "ACTIVE"⟩],
      callbackCalls := if hasCallback then [alarm] else [] }

/-- `AlarmEngine._resolve_alarm` (engine.py lines 117-132): pop the open
event, set `RESOLVED` and the end time, and publish a return-to-normal
notification with severity `INFO` and status `NORMAL`. -/
def resolveAlarm (st : ActiveMap) (key : String) (now : Nat) : EvalOut :=
  match amLookup st key with
  | none => noEffect st
  | some alarm =>
    { state := amErase st key,
      created := none,
      resolvedEv := some { alarm with status := .resolved, end_time := some now },
      publicationsSent :=
        [⟨key, "INFO", "Alarm resolved: " ++ ratStr alarm.trigger_value ++ " -> Normal",
          "NORMAL"⟩],
      callbackCalls := [] }

/-- `AlarmEngine.evaluate` (engine.py lines 31-79): skip tags without an
active definition; test HH, LL, H, L in that order against the limits dict;
on the first match create an alarm with the matching severity and message;
with no match, resolve the open alarm for the tag's key if one exists. -/
def evaluate (hasCallback : Bool) (st : ActiveMap) (tag : Tag) (value : Rat)
    (now : Nat) : EvalOut :=
  match tag.alarm_definition with
  | none => noEffect st
  | some d =>
    if d.is_active = false then noEffect st
    else
      let limits := d.limits
      let alarm_key := toString tag.id
      let hh := limitsGet limits "HH"
      let ll := limitsGet limits "LL"
      let h := limitsGet limits "H"
      let l := limitsGet limits "L"
      if geLim hh value then
        createAlarm hasCallback st tag value .critical
          (mkAlarmMsg d.message "HH" value ">=" (hh.getD 0)) now
      else if leLim ll value then
        createAlarm hasCallback st tag value .critical
          (mkAlarmMsg d.message "LL" value "<=" (ll.getD 0)) now
      else if geLim h value then
        createAlarm hasCallback st tag value .warning
          (mkAlarmMsg d.message "H" value ">=" (h.getD 0)) now
      else if leLim l value then
        createAlarm hasCallback st tag value .warning
          (mkAlarmMsg d.message "L" value "<=" (l.getD 0)) now
      else
        if (amLookup st alarm_key).isSome then resolveAlarm st alarm_key now
        else noEffect st

/-- One `evaluate` request: the tag, the sampled value, and the wall-clock
instant of the call. -/
structure EvalStep where
  tag : Tag
  value : Rat
  now : Nat

/-- Fold a sequence of `evaluate` calls through the engine state. -/
def runSteps (hasCallback : Bool) (st : ActiveMap) : List EvalStep → ActiveMap
  | [] => st
  | s :: rest =>
    runSteps hasCallback (evaluate hasCallback st s.tag s.value s.now).state rest

/-- The active-alarm map holds at most one entry per alarm key. -/
def keysNodup (st : ActiveMap) : Prop :=
  ((st : List (String × AlarmEvent)).map Prod.fst).Nodup

/-- One limit test of the spec's chain: fire when the limit is configured
and the value is at or above it. -/
def tryGe (sev : AlarmSeverity) (name : String) (lim : Option Rat) (v : Rat) :
    Option (AlarmSeverity × String × Rat) :=
  match lim with
  | some x => if v ≥ x then some (sev, name, x) else none
  | none => none

/-- One limit test of the spec's chain: fire when the limit is configured
and the value is at or below it. -/
def tryLe (sev : AlarmSeverity) (name : String) (lim : Option Rat) (v : Rat) :
    Option (AlarmSeverity × String × Rat) :=
  match lim with
  | some x => if v ≤ x then some (sev, name, x) else none
  | none => none

/-- Modelled from the spec: per-tag evaluation most-critical-first — HH,
then LL, then H, then L, a test skipped when that limit is absent, the
first matching limit winning with severity CRITICAL for HH/LL and WARNING
for H/L; `none` means the value is normal. -/
def specFirstMatch (d : AlarmDefinition) (v : Rat) : Option (AlarmSeverity × String × Rat) :=
  match tryGe .critical "HH" (limitsGet d.limits "HH") v with
  | some r => some r
  | none =>
    match tryLe .critical "LL" (limitsGet d.limits "LL") v with
    | some r => some r
    | none =>
      match tryGe .warning "H" (limitsGet d.limits "H") v with
      | some r => some r
      | none => tryLe .warning "L" (limitsGet d.limits "L") v

/-- The comparison operator interpolated into the message for a limit name. -/
def opOf (name : String) : String :=
  if name = "HH" ∨ name = "H" then ">=" else "<="

/-- A tag definition update touching only the deadband field. -/
def setDeadband (t : Tag) (db : Rat) : Tag :=
  { t with alarm_definition := t.alarm_definition.map (fun d => { d with deadband := db }) }

theorem tryGe_eq (sev : AlarmSeverity) (name : String) (lim : Option Rat) (v : Rat) :
    tryGe sev name lim v =
      if geLim lim v then some (sev, name, lim.getD 0) else none := by
  cases lim with
  | none => simp [tryGe, geLim]
  | some x => by_cases hx : v ≥ x <;> simp [tryGe, geLim, hx]

theorem tryLe_eq (sev : AlarmSeverity) (name : String) (lim : Option Rat) (v : Rat) :
    tryLe sev name lim v =
      if leLim lim v then some (sev, name, lim.getD 0) else none := by
  cases lim with
  | none => simp [tryLe, leLim]
  | some x => by_cases hx : v ≤ x <;> simp [tryLe, leLim, hx]

theorem amLookup_eq_none_iff {st : ActiveMap} {k : String} :
    amLookup st k = none ↔ ∀ p ∈ st, p.1 ≠ k := by
  simp [amLookup, List.find?_eq_none]

theorem createAlarm_state_cases (cb : Bool) (st : ActiveMap) (tag : Tag) (v : Rat)
    (sev : AlarmSeverity) (msg : String) (now : Nat) :
    (createAlarm cb st tag v sev msg now).state = st ∨
    (amLookup st (toString tag.id) = none ∧
      ∃ a, a.status = AlarmStatus.activeUnack ∧
        (createAlarm cb st tag v sev msg now).state = (toString tag.id, a) :: st) := by
  by_cases h : (amLookup st (toString tag.id)).isSome
  · left; simp [createAlarm, h]
  · right
    refine ⟨Option.not_isSome_iff_eq_none.mp h, ?_⟩
    refine ⟨{ definition_id := defIdOf tag, trigger_value := v,
              status := AlarmStatus.activeUnack, start_time := now,
              end_time := none }, rfl, ?_⟩
    simp [createAlarm, h]

theorem resolveAlarm_state_cases (st : ActiveMap) (key : String) (now : Nat) :
    (resolveAlarm st key now).state = st ∨
    (resolveAlarm st key now).state = amErase st key := by
  cases h : amLookup st key
  · left; simp [resolveAlarm, h, noEffect]
  · right; simp [resolveAlarm, h]

theorem evaluate_state_cases (cb : Bool) (st : ActiveMap) (tag : Tag) (v : Rat) (now : Nat) :
    (evaluate cb st tag v now).state = st ∨
    (amLookup st (toString tag.id) = none ∧
      ∃ a, a.status = AlarmStatus.activeUnack ∧
        (evaluate cb st tag v now).state = (toString tag.id, a) :: st) ∨
    (evaluate cb st tag v now).state = amErase st (toString tag.id) := by
  unfold evaluate
  cases htag : tag.alarm_definition with
  | none => left; rfl
  | some d =>
    dsimp only
    by_cases hact : d.is_active = false
    · simp [hact, noEffect]
    · rw [if_neg hact]
      split_ifs with h1 h2 h3 h4 h5
      · rcases createAlarm_state_cases cb st tag v .critical
          (mkAlarmMsg d.message "HH" v ">=" ((limitsGet d.limits "HH").getD 0)) now with h | h
        · exact Or.inl h
        · exact Or.inr (Or.inl h)
      · rcases createAlarm_state_cases cb st tag v .critical
          (mkAlarmMsg d.message "LL" v "<=" ((limitsGet d.limits "LL").getD 0)) now with h | h
        · exact Or.inl h
        · exact Or.inr (Or.inl h)
      · rcases createAlarm_state_cases cb st tag v .warning
          (mkAlarmMsg d.message "H" v ">=" ((limitsGet d.limits "H").getD 0)) now with h | h
        · exact Or.inl h
        · exact Or.inr (Or.inl h)
      · rcases createAlarm_state_cases cb st tag v .warning
          (mkAlarmMsg d.message "L" v "<=" ((limitsGet d.limits "L").getD 0)) now with h | h
        · exact Or.inl h
        · exact Or.inr (Or.inl h)
      · rcases resolveAlarm_state_cases st (toString tag.id) now with h | h
        · exact Or.inl h
        · exact Or.inr (Or.inr h)
      · left; rfl

theorem evaluate_state_mem (cb : Bool) (st : ActiveMap) (tag : Tag) (v : Rat) (now : Nat) :
    ∀ p ∈ (evaluate cb st tag v now).state,
      p ∈ st ∨ p.2.status = AlarmStatus.activeUnack := by
  intro p hp
  rcases evaluate_state_cases cb st tag v now with h | ⟨hnone, a, ha, h⟩ | h
  · rw [h] at hp; exact Or.inl hp
  · rw [h] at hp
    rcases List.mem_cons.mp hp with h1 | h1
    · right; rw [h1]; exact ha
    · exact Or.inl h1
  · rw [h] at hp
    exact Or.inl (List.mem_of_mem_filter hp)

theorem keysNodup_evaluate (cb : Bool) (st : ActiveMap) (tag : Tag) (v : Rat) (now : Nat)
    (hn : keysNodup st) : keysNodup (evaluate cb st tag v now).state := by
  rcases evaluate_state_cases cb st tag v now with h | ⟨hnone, a, ha, h⟩ | h
  · rw [h]; exact hn
  · rw [h]
    unfold keysNodup at *
    simp only [List.map_cons]
    refine List.nodup_cons.mpr ⟨?_, hn⟩
    intro hmem
    rcases List.mem_map.mp hmem with ⟨p, hp, hpk⟩
    exact amLookup_eq_none_iff.mp hnone p hp hpk
  · rw [h]
    unfold keysNodup amErase at *
    exact List.Nodup.sublist (List.Sublist.map Prod.fst (List.filter_sublist st)) hn

theorem invariant_runSteps (cb : Bool) (steps : List EvalStep) :
    ∀ st : ActiveMap, keysNodup st → (∀ p ∈ st, p.2.status ≠ AlarmStatus.resolved) →
      keysNodup (runSteps cb st steps) ∧
      ∀ p ∈ runSteps cb st steps, p.2.status ≠ AlarmStatus.resolved := by
  induction steps with
  | nil => intro st h1 h2; exact ⟨h1, h2⟩
  | cons s rest ih =>
    intro st h1 h2
    apply ih
    · exact keysNodup_evaluate cb st s.tag s.value s.now h1
    · intro p hp
      rcases evaluate_state_mem cb st s.tag s.value s.now p hp with h | h
      · exact h2 p h
      · rw [h]; intro hcontra; cases hcontra

theorem evaluate_eq_spec (cb : Bool) (st : ActiveMap) (tag : Tag) (v : Rat) (now : Nat)
    (d : AlarmDefinition) (hdef : tag.alarm_definition = some d)
    (hact : d.is_active = true) :
    evaluate cb st tag v now =
      match specFirstMatch d v with
      | some (sev, name, lim) =>
          createAlarm cb st tag v sev (mkAlarmMsg d.message name v (opOf name) lim) now
      | none =>
          if (amLookup st (toString tag.id)).isSome then
            resolveAlarm st (toString tag.id) now
          else noEffect st := by
  unfold evaluate
  rw [hdef]
  have hops1 : opOf "HH" = ">=" := rfl
  have hops2 : opOf "LL" = "<=" := rfl
  have hops3 : opOf "H" = ">=" := rfl
  have hops4 : opOf "L" = "<=" := rfl
  by_cases h1 : geLim (limitsGet d.limits "HH") v
  · simp [hact, specFirstMatch, tryGe_eq, tryLe_eq, h1, hops1]
  · by_cases h2 : leLim (limitsGet d.limits "LL") v
    · simp [hact, specFirstMatch, tryGe_eq, tryLe_eq, h1, h2, hops2]
    · by_cases h3 : geLim (limitsGet d.limits "H") v
      · simp [hact, specFirstMatch, tryGe_eq, tryLe_eq, h1, h2, h3, hops3]
      · by_cases h4 : leLim (limitsGet d.limits "L") v
        · simp [hact, specFirstMatch, tryGe_eq, tryLe_eq, h1, h2, h3, h4, hops4]
        · simp [hact, specFirstMatch, tryGe_eq, tryLe_eq, h1, h2, h3, h4]

/-- C1: for every sequence of `AlarmEngine.evaluate` calls from the initial
empty engine, the active-alarm map keeps at most one entry per tag key and
holds only non-RESOLVED events; and when a limit matches while an alarm is
already open for the tag's key, the call records no second event, changes
no state, and publishes nothing. -/
theorem atMostOneOpenAlarmPerTag (cb : Bool) (steps : List EvalStep) :
    (keysNodup (runSteps cb [] steps) ∧
      ∀ p ∈ runSteps cb [] steps, p.2.status ≠ AlarmStatus.resolved) ∧
    (∀ st tag v now d, tag.alarm_definition = some d →
      specFirstMatch d v ≠ none →
      amLookup st (toString tag.id) ≠ none →
      (evaluate cb st tag v now).created = none ∧
      (evaluate cb st tag v now).state = st ∧
      (evaluate cb st tag v now).publicationsSent = []) := by
  constructor
  · exact invariant_runSteps cb steps [] (by simp [keysNodup]) (by simp)
  · intro st tag v now d hdef hmatch hopen
    by_cases hact : d.is_active = true
    · have hspec := evaluate_eq_spec cb st tag v now d hdef hact
      rcases hsm : specFirstMatch d v with _ | ⟨sev, name, lim⟩
      · exact absurd hsm hmatch
      · rw [hspec, hsm]
        have hsome : (amLookup st (toString tag.id)).isSome :=
          Option.ne_none_iff_isSome.mp hopen
        simp [createAlarm, hsome]
    · simp only [Bool.not_eq_true] at hact
      unfold evaluate
      rw [hdef]
      simp [hact, noEffect]

/-- The scenario alarm definition of spec §8: HH limit 90, LL limit 10. -/
def scenDef : AlarmDefinition :=
  { id := 7, severity := .critical, message := "m",
    limits := [("HH", 90), ("LL", 10)], deadband := 0, is_active := true }

/-- The scenario tag carrying `scenDef`. -/
def scenTag : Tag :=
  { id := 1, name := "t1", mqtt_topic := none, connection_config := [],
    alarm_definition := some scenDef }

/-- An open alarm event used to instantiate hypothesised theorems. -/
def scenOpenEv : AlarmEvent :=
  { definition_id := 7, trigger_value := 95, status := .activeUnack,
    start_time := 1, end_time := none }

theorem atMostOneOpenAlarmPerTag_witness :
    (evaluate false [("1", scenOpenEv)] scenTag 95 9).created = none ∧
    (evaluate false [("1", scenOpenEv)] scenTag 95 9).state = [("1", scenOpenEv)] ∧
    (evaluate false [("1", scenOpenEv)] scenTag 95 9).publicationsSent = [] :=
  (atMostOneOpenAlarmPerTag false []).2 [("1", scenOpenEv)] scenTag 95 9 scenDef rfl
    (by decide) (by decide)

/-- The scenario run, sample by sample: 50, 95, 50, 5, 50. -/
def scenO1 : EvalOut := evaluate false [] scenTag 50 0

/-- Second scenario sample, value 95. -/
def scenO2 : EvalOut := evaluate false scenO1.state scenTag 95 1

/-- Third scenario sample, value 50 again. -/
def scenO3 : EvalOut := evaluate false scenO2.state scenTag 50 2

/-- Fourth scenario sample, value 5. -/
def scenO4 : EvalOut := evaluate false scenO3.state scenTag 5 3

/-- Fifth scenario sample, value 50 again. -/
def scenO5 : EvalOut := evaluate false scenO4.state scenTag 50 4

/-- C2: with HH 90 and LL 10, the value sequence 50, 95, 50, 5, 50 opens a
CRITICAL alarm on the HH match at the second sample and a distinct CRITICAL
alarm on the LL match at the fourth, and each open alarm is resolved with an
end time by the following 50. -/
theorem hhLlScenarioLifecycle :
    (scenO1.created = none ∧ scenO1.resolvedEv = none ∧ scenO1.state = []) ∧
    (scenO2.created = some { definition_id := 7, trigger_value := 95,
                             status := .activeUnack, start_time := 1, end_time := none } ∧
      scenO2.publicationsSent =
        [{ alarm_id := "1", severity := "critical",
           message := "m (HH: 95 >= 90)", status := "ACTIVE" }]) ∧
    (scenO3.created = none ∧
      scenO3.resolvedEv = some { definition_id := 7, trigger_value := 95,
                                 status := .resolved, start_time := 1, end_time := some 2 } ∧
      scenO3.state = []) ∧
    (scenO4.created = some { definition_id := 7, trigger_value := 5,
                             status := .activeUnack, start_time := 3, end_time := none } ∧
      scenO4.publicationsSent =
        [{ alarm_id := "1", severity := "critical",
           message := "m (LL: 5 <= 10)", status := "ACTIVE" }]) ∧
    (scenO5.created = none ∧
      scenO5.resolvedEv = some { definition_id := 7, trigger_value := 5,
                                 status := .resolved, start_time := 3, end_time := some 4 } ∧
      scenO5.state = []) ∧
    scenO2.created ≠ scenO4.created := by
  decide

/-- C3: with an active definition, `evaluate` is exactly dispatch on the
spec's most-critical-first chain HH, LL, H, L — each comparison `>=` for
high limits and `<=` for low ones, a test skipped when the limit is absent,
the first match alone fixing severity and message — and when no limit
matches the value is normal and no new alarm is created. -/
theorem evaluateMostCriticalFirst (cb : Bool) (st : ActiveMap) (tag : Tag)
    (v : Rat) (now : Nat) (d : AlarmDefinition)
    (hdef : tag.alarm_definition = some d) (hact : d.is_active = true) :
    (evaluate cb st tag v now =
      match specFirstMatch d v with
      | some (sev, name, lim) =>
          createAlarm cb st tag v sev (mkAlarmMsg d.message name v (opOf name) lim) now
      | none =>
          if (amLookup st (toString tag.id)).isSome then
            resolveAlarm st (toString tag.id) now
          else noEffect st) ∧
    (specFirstMatch d v = none → (evaluate cb st tag v now).created = none) := by
  have hspec := evaluate_eq_spec cb st tag v now d hdef hact
  refine ⟨hspec, ?_⟩
  intro hnone
  rw [hspec, hnone]
  by_cases h : (amLookup st (toString tag.id)).isSome
  · simp only [h, if_true]
    cases hl : amLookup st (toString tag.id)
    · simp [resolveAlarm, hl, noEffect]
    · simp [resolveAlarm, hl]
  · simp [h, noEffect]

theorem evaluateMostCriticalFirst_witness :
    evaluate false [] scenTag 95 1 =
      match specFirstMatch scenDef 95 with
      | some (sev, name, lim) =>
          createAlarm false [] scenTag 95 sev
            (mkAlarmMsg scenDef.message name 95 (opOf name) lim) 1
      | none =>
          if (amLookup [] (toString scenTag.id)).isSome then
            resolveAlarm [] (toString scenTag.id) 1
          else noEffect [] :=
  (evaluateMostCriticalFirst false [] scenTag 95 1 scenDef rfl rfl).1

/-- C4: on a limit match with no open alarm for the tag, `evaluate` records
a new `ACTIVE_UNACK` event carrying the trigger value and start time,
publishes one severity-tagged notification with status `ACTIVE`, invokes the
external callback exactly when one is registered, and returns the event. -/
theorem createOnMatchNoOpenAlarm (cb : Bool) (st : ActiveMap) (tag : Tag)
    (v : Rat) (now : Nat) (d : AlarmDefinition)
    (sev : AlarmSeverity) (name : String) (lim : Rat)
    (hdef : tag.alarm_definition = some d) (hact : d.is_active = true)
    (hmatch : specFirstMatch d v = some (sev, name, lim))
    (hnoopen : amLookup st (toString tag.id) = none) :
    (evaluate cb st tag v now).created =
      some { definition_id := d.id, trigger_value := v,
             status := AlarmStatus.activeUnack, start_time := now, end_time := none } ∧
    (evaluate cb st tag v now).state =
      (toString tag.id,
        ({ definition_id := d.id, trigger_value := v,
           status := AlarmStatus.activeUnack, start_time := now,
           end_time := none } : AlarmEvent)) :: st ∧
    (evaluate cb st tag v now).publicationsSent =
      [{ alarm_id := toString tag.id, severity := sevValue sev,
         message := mkAlarmMsg d.message name v (opOf name) lim,
         status := "ACTIVE" }] ∧
    (evaluate cb st tag v now).callbackCalls =
      (if cb then
        [{ definition_id := d.id, trigger_value := v,
           status := AlarmStatus.activeUnack, start_time := now, end_time := none }]
       else []) := by
  have hspec := evaluate_eq_spec cb st tag v now d hdef hact
  rw [hspec, hmatch]
  have hid : defIdOf tag = d.id := by simp [defIdOf, hdef]
  simp [createAlarm, hnoopen, hid]

theorem createOnMatchNoOpenAlarm_witness :
    (evaluate true [] scenTag 95 1).created =
      some { definition_id := scenDef.id, trigger_value := 95,
             status := AlarmStatus.activeUnack, start_time := 1, end_time := none } ∧
    (evaluate true [] scenTag 95 1).state =
      (toString scenTag.id,
        ({ definition_id := scenDef.id, trigger_value := 95,
           status := AlarmStatus.activeUnack, start_time := 1,
           end_time := none } : AlarmEvent)) :: [] ∧
    (evaluate true [] scenTag 95 1).publicationsSent =
      [{ alarm_id := toString scenTag.id, severity := sevValue .critical,
         message := mkAlarmMsg scenDef.message "HH" 95 (opOf "HH") 90,
         status := "ACTIVE" }] ∧
    (evaluate true [] scenTag 95 1).callbackCalls =
      (if true then
        [{ definition_id := scenDef.id, trigger_value := 95,
           status := AlarmStatus.activeUnack, start_time := 1, end_time := none }]
       else []) :=
  createOnMatchNoOpenAlarm true [] scenTag 95 1 scenDef .critical "HH" 90 rfl rfl
    (by decide) (by decide)

/-- C5: the outcome of `evaluate` — state, returned event, resolutions,
publications, and callback invocations — is independent of the
definition's deadband field. -/
theorem evaluateDeadbandNoninterference (cb : Bool) (st : ActiveMap) (t : Tag)
    (v : Rat) (now : Nat) (db₁ db₂ : Rat) :
    evaluate cb st (setDeadband t db₁) v now = evaluate cb st (setDeadband t db₂) v now := by
  cases htag : t.alarm_definition <;>
    simp [evaluate, setDeadband, htag, createAlarm, defIdOf, noEffect, resolveAlarm]

/-- A protocol identifier as accepted by `ProtocolFactory.get_driver`:
either an enum member — the code then takes `str(protocol_type.value)` —
or a plain string. -/
inductive ProtoIdent
  | ofEnum (value : String)
  | ofStr (s : String)
  deriving DecidableEq, Repr

/-- Connection config blob passed through to the driver constructor. -/
abbrev ConnCfg := List (String × String)

/-- The concrete driver instances the factory can return (`ModbusDriver`,
`OpcUaDriver`, `SimulatorDriver`), each holding the connection config it
was built from. -/
inductive Driver
  | modbus (cfg : ConnCfg)
  | opcua (cfg : ConnCfg)
  | simulator (cfg : ConnCfg)
  deriving DecidableEq, Repr

/-- Python `str.lower()` (kernel-reducible rendering over the char list). -/
def strLower (s : String) : String := ⟨s.data.map Char.toLower⟩

/-- Whether the pattern is an initial segment of the char list. -/
def startsWithChars : List Char → List Char → Bool
  | [], _ => true
  | _ :: _, [] => false
  | p :: ps, c :: cs => p == c && startsWithChars ps cs

/-- Python substring containment (`pat in s`). -/
def hasSubChars (pat : List Char) : List Char → Bool
  | [] => startsWithChars pat []
  | c :: cs => startsWithChars pat (c :: cs) || hasSubChars pat cs

/-- Python `str.split(sep)` for a one-character separator, keeping empty
segments, so that the list is never empty. -/
def splitOnChar (sep : Char) : List Char → List (List Char)
  | [] => [[]]
  | c :: cs =>
    let rest := splitOnChar sep cs
    if c = sep then [] :: rest
    else
      match rest with
      | [] => [[c]]
      | r :: rs => (c :: r) :: rs

/-- The lowercased string the factory extracts from the identifier
(`str(protocol_type.value).lower()` for enums, `str(protocol_type).lower()`
otherwise). -/
def pTypeOf : ProtoIdent → String
  | .ofEnum v => strLower v
  | .ofStr s => strLower s

/-- The factory's cleanup step: when `"protocoltype."` occurs anywhere in
the string (the Python `in` containment test), keep only the part after
the last `"."` (`p_type.split(".")[-1]`). -/
def cleanPType (p0 : String) : String :=
  if hasSubChars "protocoltype.".data p0.data then
    ⟨(splitOnChar '.' p0.data).getLastD []⟩
  else p0

/-- `ProtocolFactory.get_driver` (factory.py lines 13-41): normalize the
identifier, dispatch on `modbus` / `opcua` / `simulated` / `simulator`, and
raise `ValueError` for anything else. -/
def get_driver (pid : ProtoIdent) (cfg : ConnCfg) : Except String Driver :=
  let p_type := cleanPType (pTypeOf pid)
  if p_type = "modbus" then .ok (.modbus cfg)
  else if p_type = "opcua" then .ok (.opcua cfg)
  else if p_type = "simulated" ∨ p_type = "simulator" then .ok (.simulator cfg)
  else .error "Protocolo no soportado"

/-- Modelled from the claim's words: lowercase the identifier's value and
strip a leading `"protocoltype."` prefix when present. -/
def claimNormalize (pid : ProtoIdent) : String :=
  let t := pTypeOf pid
  if startsWithChars "protocoltype.".data t.data then
    ⟨t.data.drop "protocoltype.".data.length⟩
  else t

/-- C6 counterexample: the identifier `"xprotocoltype.modbus"` normalizes,
under the claim's lowercase-and-strip-prefix rule, to a string that is none
of the four accepted names — so the claim requires an unsupported-protocol
error — yet `get_driver` returns a `ModbusDriver`, because the code tests
substring containment of `"protocoltype."` and then keeps the last
`"."`-separated segment. -/
theorem factoryClaimCounterexample :
    claimNormalize (.ofStr "xprotocoltype.modbus") ∉
      (["modbus", "opcua", "simulated", "simulator"] : List String) ∧
    get_driver (.ofStr "xprotocoltype.modbus") [] = .ok (.modbus []) := by
  constructor
  · decide
  · rfl

/-- C6 amended: for every identifier whose value, lowercased and — when it
contains `"protocoltype."` anywhere — reduced to its last `"."`-separated
segment, equals `modbus`, `opcua`, `simulated` or `simulator`,
`get_driver` returns the matching driver built from the given config; for
every other identifier it raises an unsupported-protocol error. -/
theorem factoryAmendedDispatch (pid : ProtoIdent) (cfg : ConnCfg) :
    (cleanPType (pTypeOf pid) = "modbus" → get_driver pid cfg = .ok (.modbus cfg)) ∧
    (cleanPType (pTypeOf pid) = "opcua" → get_driver pid cfg = .ok (.opcua cfg)) ∧
    ((cleanPType (pTypeOf pid) = "simulated" ∨ cleanPType (pTypeOf pid) = "simulator") →
      get_driver pid cfg = .ok (.simulator cfg)) ∧
    (cleanPType (pTypeOf pid) ∉
        (["modbus", "opcua", "simulated", "simulator"] : List String) →
      get_driver pid cfg = .error "Protocolo no soportado") := by
  refine ⟨?_, ?_, ?_, ?_⟩
  · intro h; simp [get_driver, h]
  · intro h; simp [get_driver, h]
  · intro h
    rcases h with h | h <;> simp [get_driver, h]
  · intro h
    simp only [List.mem_cons, List.not_mem_nil, or_false, not_or] at h
    obtain ⟨h1, h2, h3, h4⟩ := h
    simp [get_driver, h1, h2, h3, h4]

theorem factoryAmendedDispatch_witness :
    get_driver (.ofStr "ProtocolType.OPCUA") [] = .ok (.opcua []) :=
  (factoryAmendedDispatch (.ofStr "ProtocolType.OPCUA") []).2.1 (by decide)

/-- The per-tag I/O outcomes one polling-cycle iteration can encounter:
driver construction, `connect`, `read_tag`, `disconnect`, the internal-bus
publish, and a failure raised out of alarm evaluation's own publishing.
`Except.error` models a raised exception. -/
structure TagEnv where
  driverR : Except String Unit
  connectR : Except String Unit
  readR : Except String (Option Rat)
  disconnectR : Except String Unit
  publishR : Except String Unit
  alarmR : Except String Unit

/-- Observable per-tag effects of one ingestion step. -/
inductive CycleEffect
  | published (topic : String) (tagId : Nat) (v : Rat)
  | saved (tagId : Nat) (v : Rat)
  | alarmEvaluated (tagId : Nat) (v : Rat)
  deriving DecidableEq, Repr

/-- The internal republish topic: `tag.mqtt_topic or f"scada/tags/{tag.name}"`. -/
def topicOf (tag : Tag) : String :=
  match tag.mqtt_topic with
  | some t => if t = "" then "scada/tags/" ++ tag.name else t
  | none => "scada/tags/" ++ tag.name

/-- The body of one tag's iteration in `data_acquisition_loop` (engine.py
lines 49-95): get_driver, connect, read, disconnect; skip silently when the
raw value is `None`; otherwise publish the canonical payload, save the
metric (`save_metric` swallows its own storage failures internally), and
evaluate alarms.  An `Except.error` anywhere models the exception reaching
the per-tag `except` handler; the active-alarm map keeps whatever
`evaluate` committed before an alarm-publish failure. -/
def processTag (cb : Bool) (st : ActiveMap) (tag : Tag) (env : TagEnv) (now : Nat) :
    ActiveMap × Except String (List CycleEffect) :=
  match env.driverR with
  | .error e => (st, .error e)
  | .ok _ =>
    match env.connectR with
    | .error e => (st, .error e)
    | .ok _ =>
      match env.readR with
      | .error e => (st, .error e)
      | .ok raw =>
        match env.disconnectR with
        | .error e => (st, .error e)
        | .ok _ =>
          match raw with
          | none => (st, .ok [])
          | some v =>
            match env.publishR with
            | .error e => (st, .error e)
            | .ok _ =>
              let out := evaluate cb st tag v now
              match env.alarmR with
              | .error e => (out.state, .error e)
              | .ok _ =>
                (out.state,
                 .ok [.published (topicOf tag) tag.id v, .saved tag.id v,
                      .alarmEvaluated tag.id v])

/-- One scheduler cycle over the snapshot `tags` (engine.py lines 49-95):
each tag's body runs under its own try/except, so a failure is recorded for
that tag and iteration continues with the next tag. -/
def runCycle (cb : Bool) (st : ActiveMap) (tags : List Tag) (envOf : Tag → TagEnv)
    (now : Nat) : ActiveMap × List (Nat × Except String (List CycleEffect)) :=
  match tags with
  | [] => (st, [])
  | t :: ts =>
    let r := processTag cb st t (envOf t) now
    let rest := runCycle cb r.1 ts envOf now
    (rest.1, (t.id, r.2) :: rest.2)

theorem runCycle_map_fst (cb : Bool) (st : ActiveMap) (tags : List Tag)
    (envOf : Tag → TagEnv) (now : Nat) :
    (runCycle cb st tags envOf now).2.map Prod.fst = tags.map Tag.id := by
  induction tags generalizing st with
  | nil => simp [runCycle]
  | cons t ts ih => simp [runCycle, ih]

theorem runCycle_append (cb : Bool) (st : ActiveMap) (l₁ l₂ : List Tag)
    (envOf : Tag → TagEnv) (now : Nat) :
    runCycle cb st (l₁ ++ l₂) envOf now =
      ((runCycle cb (runCycle cb st l₁ envOf now).1 l₂ envOf now).1,
       (runCycle cb st l₁ envOf now).2 ++
         (runCycle cb (runCycle cb st l₁ envOf now).1 l₂ envOf now).2) := by
  induction l₁ generalizing st with
  | nil => simp [runCycle]
  | cons t ts ih => simp [runCycle, ih]

/-- C7: one polling cycle processes every tag of the snapshot exactly once
and in order, whatever exceptions individual tags raise — the result list
carries one entry per tag, and around any tag `t` the tags after it are
still processed, from the state `t` left behind, with `t`'s own outcome
(error or not) recorded in place. -/
theorem cycleIsolatesPerTagFailures (cb : Bool) (st : ActiveMap)
    (tags : List Tag) (envOf : Tag → TagEnv) (now : Nat) :
    ((runCycle cb st tags envOf now).2.map Prod.fst = tags.map Tag.id) ∧
    (∀ (pre post : List Tag) (t : Tag),
      (runCycle cb st (pre ++ t :: post) envOf now).2 =
        (runCycle cb st pre envOf now).2 ++
          (t.id, (processTag cb (runCycle cb st pre envOf now).1 t (envOf t) now).2) ::
          (runCycle cb
            (processTag cb (runCycle cb st pre envOf now).1 t (envOf t) now).1
            post envOf now).2) := by
  refine ⟨runCycle_map_fst cb st tags envOf now, ?_⟩
  intro pre post t
  rw [runCycle_append]
  simp [runCycle]

/-- The outcome of `json.loads` on the payload, abstracted: `notJson` when
parsing raised `JSONDecodeError`; `obj` for a JSON object, each field
carrying its `float(value)` result (`none` when the conversion would
raise); `nonDict` for JSON that is not an object, on which the attribute
accesses `.get` / `.items` raise. -/
inductive Parsed
  | notJson
  | obj (fields : List (String × Option Rat))
  | nonDict
  deriving DecidableEq, Repr

/-- An external bus message: its topic, the `float(payload_str)` result for
the raw branch, and the parse outcome. -/
structure ExtMessage where
  topic : String
  rawFloat : Option Rat
  parsed : Parsed
  deriving DecidableEq, Repr

/-- Python truthiness of an optional string config entry. -/
def strTruthy : Option String → Bool
  | some s => s != ""
  | none => false

/-- `parsed_data.get(key)` on the object's fields. -/
def fieldsGet (fields : List (String × Option Rat)) (key : String) : Option (Option Rat) :=
  (fields.find? (fun p => p.1 == key)).map (fun p => p.2)

/-- The fallback scan: the first field whose value converts with `float`,
with the loop leaving the 0.0 default when nothing converts. -/
def firstNumeric (fields : List (String × Option Rat)) : Rat :=
  match fields.find? (fun p => p.2.isSome) with
  | some p => p.2.getD 0
  | none => 0

/-- Value extraction in `_process_tag_value` (mqtt_listener.py lines
143-169): with a truthy `json_key` and a truthy parsed dict, take
`float(parsed_data.get(json_key, 0.0))`; when the payload was not JSON,
`float(payload_str)`; otherwise scan the dict for the first
float-convertible field, defaulting to 0.0.  `Except.error` models a
raised exception, caught by the per-tag handler. -/
def extractValue (jsonKey : Option String) (msg : ExtMessage) : Except String Rat :=
  match msg.parsed with
  | .obj fields =>
    if strTruthy jsonKey && !fields.isEmpty then
      match fieldsGet fields (jsonKey.getD "") with
      | some (some q) => .ok q
      | some none => .error "float conversion failed"
      | none => .ok 0
    else
      .ok (firstNumeric fields)
  | .notJson =>
    match msg.rawFloat with
    | some q => .ok q
    | none => .error "float conversion failed"
  | .nonDict => .error "AttributeError"

/-- `_process_tag_value` (mqtt_listener.py lines 143-194): extract the
value, save a sample, publish the canonical event on the tag's internal
topic, and evaluate alarms, all under a per-tag try/except. -/
def processTagValue (cb : Bool) (st : ActiveMap) (tag : Tag) (msg : ExtMessage)
    (now : Nat) : ActiveMap × Except String (List CycleEffect) :=
  match extractValue (cfgGet tag.connection_config "json_key") msg with
  | .error e => (st, .error e)
  | .ok v =>
    let out := evaluate cb st tag v now
    (out.state,
     .ok [.saved tag.id v, .published (topicOf tag) tag.id v,
          .alarmEvaluated tag.id v])

/-- The fan-out loop of `process_external_message` over the tags of one
topic. -/
def runTags (cb : Bool) (st : ActiveMap) (tags : List Tag) (msg : ExtMessage)
    (now : Nat) : ActiveMap × List (Nat × Except String (List CycleEffect)) :=
  match tags with
  | [] => (st, [])
  | t :: ts =>
    let r := processTagValue cb st t msg now
    let rest := runTags cb r.1 ts msg now
    (rest.1, (t.id, r.2) :: rest.2)

/-- The listener's in-memory `_topic_map`: topic string to subscribed tags. -/
abbrev TopicMap := List (String × List Tag)

/-- `_topic_map.get(topic)`. -/
def tmGet (m : TopicMap) (topic : String) : Option (List Tag) :=
  (m.find? (fun p => p.1 == topic)).map (fun p => p.2)

/-- `process_external_message` (mqtt_listener.py lines 110-140): resolve
the topic to its tag list; with no tags (`if not tags`, the unconfigured
topic case) return without any effect; otherwise parse once and process
every tag of the list. -/
def processExternalMessage (cb : Bool) (tm : TopicMap) (st : ActiveMap)
    (msg : ExtMessage) (now : Nat) :
    ActiveMap × List (Nat × Except String (List CycleEffect)) :=
  match tmGet tm msg.topic with
  | none => (st, [])
  | some tags =>
    if tags.isEmpty then (st, [])
    else runTags cb st tags msg now

/-- The extracted value when extraction succeeds (0 as a dummy on error). -/
def extractedV (t : Tag) (msg : ExtMessage) : Rat :=
  match extractValue (cfgGet t.connection_config "json_key") msg with
  | .ok v => v
  | .error _ => 0

/-- C8: a message on a topic mapped to tags is fanned out to every tag of
the list in order; when each tag's value extraction succeeds, every tag —
not only the first match — yields exactly one persisted sample, one
canonical event on its own internal topic, and one alarm evaluation. -/
theorem listenerFanOutAllTags (cb : Bool) (tm : TopicMap) (st : ActiveMap)
    (msg : ExtMessage) (now : Nat) (tags : List Tag)
    (htm : tmGet tm msg.topic = some tags) (hne : tags ≠ [])
    (hok : ∀ t ∈ tags,
      ∃ v, extractValue (cfgGet t.connection_config "json_key") msg = .ok v) :
    (processExternalMessage cb tm st msg now).2 =
      tags.map (fun t =>
        (t.id, Except.ok
          [CycleEffect.saved t.id (extractedV t msg),
           CycleEffect.published (topicOf t) t.id (extractedV t msg),
           CycleEffect.alarmEvaluated t.id (extractedV t msg)])) := by
  have main : ∀ (l : List Tag) (s : ActiveMap),
      (∀ t ∈ l,
        ∃ v, extractValue (cfgGet t.connection_config "json_key") msg = .ok v) →
      (runTags cb s l msg now).2 =
        l.map (fun t =>
          (t.id, Except.ok
            [CycleEffect.saved t.id (extractedV t msg),
             CycleEffect.published (topicOf t) t.id (extractedV t msg),
             CycleEffect.alarmEvaluated t.id (extractedV t msg)])) := by
    intro l
    induction l with
    | nil => intro s _; simp [runTags]
    | cons t ts ih =>
      intro s hall
      obtain ⟨v, hv⟩ := hall t (List.mem_cons_self t ts)
      have hEv : extractedV t msg = v := by simp [extractedV, hv]
      have hts := fun u hu => hall u (List.mem_cons_of_mem t hu)
      simp [runTags, processTagValue, hv, ih _ hts, hEv]
  cases tags with
  | nil => cases hne rfl
  | cons a as =>
    have h2 := main (a :: as) st hok
    simp only [processExternalMessage, htm]
    simpa [List.isEmpty] using h2

/-- C9: a message on a topic absent from the listener's topic map is
dropped whole — no sample, no alarm activity, no canonical event, and an
unchanged alarm-engine state. -/
theorem listenerDropsUnknownTopic (cb : Bool) (tm : TopicMap) (st : ActiveMap)
    (msg : ExtMessage) (now : Nat) (h : tmGet tm msg.topic = none) :
    processExternalMessage cb tm st msg now = (st, []) := by
  simp [processExternalMessage, h]

/-- C10: a structured payload whose configured `json_key` is absent from
the parsed object — or with no `json_key` configured and no
float-convertible field — is not dropped: the 0.0 default is persisted,
published on the tag's internal topic, and evaluated against the alarms. -/
theorem listenerDefaultsMissingKeyToZero (cb : Bool) (st : ActiveMap) (tag : Tag)
    (msg : ExtMessage) (now : Nat) (fields : List (String × Option Rat))
    (hobj : msg.parsed = .obj fields)
    (hmiss :
      (strTruthy (cfgGet tag.connection_config "json_key") = true ∧
        fieldsGet fields ((cfgGet tag.connection_config "json_key").getD "") = none) ∨
      (strTruthy (cfgGet tag.connection_config "json_key") = false ∧
        ∀ p ∈ fields, p.2 = none)) :
    processTagValue cb st tag msg now =
      ((evaluate cb st tag 0 now).state,
       Except.ok [CycleEffect.saved tag.id 0,
                  CycleEffect.published (topicOf tag) tag.id 0,
                  CycleEffect.alarmEvaluated tag.id 0]) := by
  have hex : extractValue (cfgGet tag.connection_config "json_key") msg = .ok 0 := by
    rcases hmiss with ⟨ht, hget⟩ | ⟨hf, hall⟩
    · by_cases hemp : fields.isEmpty
      · simp [extractValue, hobj, hemp, firstNumeric,
              List.isEmpty_iff.mp hemp]
      · simp [extractValue, hobj, ht, hemp, hget]
    · have hfind : fields.find? (fun p => p.2.isSome) = none :=
        List.find?_eq_none.mpr (fun p hp => by simp [hall p hp])
      simp [extractValue, hobj, hf, firstNumeric, hfind]
  simp [processTagValue, hex]

/-- A push tag with a configured `json_key`, subscribed to topic `top`. -/
def demoTagA : Tag :=
  { id := 2, name := "a", mqtt_topic := some "ta",
    connection_config := [("topic", "top"), ("json_key", "t")],
    alarm_definition := none }

/-- A second push tag on the same topic, with no `json_key`. -/
def demoTagB : Tag :=
  { id := 3, name := "b", mqtt_topic := none, connection_config := [],
    alarm_definition := none }

/-- A push tag whose configured `json_key` does not occur in the payload. -/
def demoTagK : Tag :=
  { id := 4, name := "k", mqtt_topic := none,
    connection_config := [("json_key", "k")], alarm_definition := none }

/-- A bus message on topic `top` carrying the JSON object with one numeric
field `t`. -/
def demoMsg : ExtMessage :=
  { topic := "top", rawFloat := none, parsed := .obj [("t", some 3)] }

/-- A topic map fanning topic `top` out to two tags. -/
def demoTopicMap : TopicMap := [("top", [demoTagA, demoTagB])]

theorem listenerFanOutAllTags_witness :
    (processExternalMessage false demoTopicMap [] demoMsg 0).2 =
      [demoTagA, demoTagB].map (fun t =>
        (t.id, Except.ok
          [CycleEffect.saved t.id (extractedV t demoMsg),
           CycleEffect.published (topicOf t) t.id (extractedV t demoMsg),
           CycleEffect.alarmEvaluated t.id (extractedV t demoMsg)])) :=
  listenerFanOutAllTags false demoTopicMap [] demoMsg 0 [demoTagA, demoTagB] rfl
    (by decide)
    (by
      intro t ht
      rcases List.mem_cons.mp ht with h1 | ht2
      · exact ⟨3, by rw [h1]; rfl⟩
      · rcases List.mem_cons.mp ht2 with h2 | ht3
        · exact ⟨3, by rw [h2]; rfl⟩
        · cases ht3)

theorem listenerDropsUnknownTopic_witness :
    processExternalMessage false [] [] demoMsg 0 = ([], []) :=
  listenerDropsUnknownTopic false [] [] demoMsg 0 rfl

theorem listenerDefaultsMissingKeyToZero_witness :
    processTagValue false [] demoTagK demoMsg 0 =
      ((evaluate false [] demoTagK 0 0).state,
       Except.ok [CycleEffect.saved demoTagK.id 0,
                  CycleEffect.published (topicOf demoTagK) demoTagK.id 0,
                  CycleEffect.alarmEvaluated demoTagK.id 0]) :=
  listenerDefaultsMissingKeyToZero false [] demoTagK demoMsg 0 [("t", some 3)] rfl
    (Or.inl ⟨rfl, rfl⟩)

end Scada
